import Mathlib

/-!
Shallow embedding of the vocabulary-learning app (src/app.js) and proofs about
its word-selection, click-recording and sanitization logic.

Modelling conventions:
* Words are elements of an arbitrary type with decidable equality (the source
  uses normalized strings as opaque identifiers); the String-specific
  sanitization code is embedded over `String`.
* The three stat maps (`storyUsage`, `clickCount`, `lastClickUsage`) are JS
  objects whose lookup yields either a stored non-negative integer or
  `undefined`; they are embedded as functions into `Option Nat`
  (`none` = absent key).
* The JS expression `m[w] || 0` is `orZero`.  A bare `m[w]` used in arithmetic
  or a comparison, with the key absent, yields `undefined`; `undefined - x` is
  `NaN`, and every `<` / `>=` comparison against `NaN` is false.  The helpers
  `jsLt`, `jsSubLt`, `jsSubGe` reproduce exactly this semantics, with the
  subtraction carried out over the integers (JS numbers can go negative).
* `Math.floor(Math.random() * copy.length)` produces some index in
  `[0, copy.length)`; the random source is made explicit as a function
  `rand : Nat -> Nat` (one per call site of `pickRandom`), reduced modulo the
  current length so that every possible run of the program corresponds to some
  choice of `rand`.
-/

namespace VocabApp

/-- src/app.js line 10: number of brand-new words per batch. -/
def NEW_BATCH_SIZE : Nat := 50

/-- src/app.js line 12: number of review words per batch. -/
def MIX_SIZE : Nat := 50

/-- src/app.js line 14: exposures needed to call an unclicked word mastered. -/
def MASTER_THRESHOLD : Nat := 20

/-- src/app.js line 16: exposures since last click needed to call a clicked word mastered. -/
def REVIEW_THRESHOLD : Nat := 20

/-- The literal batch target 100 used at src/app.js lines 95-96 (the spec names it
TARGET_BATCH_SIZE = NEW_BATCH_SIZE + MIX_SIZE). -/
def TARGET_BATCH_SIZE : Nat := 100

/-- JS `m[w] || 0`: a missing entry (and an explicit 0) both give 0. -/
def orZero (v : Option Nat) : Nat := v.getD 0

/-- JS `a < n` where `a` is a bare map lookup: `undefined < n` is a NaN
comparison and yields false. -/
def jsLt (a : Option Nat) (n : Nat) : Bool :=
  match a with
  | none => false
  | some s => decide (s < n)

/-- JS `a - b < c` where `a` is a bare map lookup: when `a` is `undefined` the
difference is NaN and the comparison is false; otherwise integer arithmetic. -/
def jsSubLt (a : Option Nat) (b : Nat) (c : Nat) : Bool :=
  match a with
  | none => false
  | some s => decide ((s : Int) - (b : Int) < (c : Int))

/-- JS `a - b >= c` where `a` is a bare map lookup: when `a` is `undefined` the
difference is NaN and the comparison is false; otherwise integer arithmetic. -/
def jsSubGe (a : Option Nat) (b : Nat) (c : Nat) : Bool :=
  match a with
  | none => false
  | some s => decide ((c : Int) ≤ (s : Int) - (b : Int))

/-- The three per-word stat maps of the `wordStats` document
(src/app.js lines 216-218). -/
structure Stats (α : Type) where
  storyUsage : α → Option Nat
  clickCount : α → Option Nat
  lastClickUsage : α → Option Nat

/-- A stats record with no entries (the `|| {}` defaults). -/
def emptyStats {α : Type} : Stats α :=
  ⟨fun _ => none, fun _ => none, fun _ => none⟩

/-- Filter condition of `unseen` (src/app.js line 51):
`(storyUsage[w] || 0) === 0`. -/
def isUnseen {α : Type} (st : Stats α) (w : α) : Bool :=
  orZero (st.storyUsage w) == 0

/-- Filter condition of `seenUnclicked` (src/app.js lines 52-54):
`(storyUsage[w] || 0) > 0 && storyUsage[w] < MASTER_THRESHOLD && (clickCount[w] || 0) === 0`. -/
def isSeenUnclicked {α : Type} (st : Stats α) (w : α) : Bool :=
  decide (0 < orZero (st.storyUsage w)) &&
  jsLt (st.storyUsage w) MASTER_THRESHOLD &&
  (orZero (st.clickCount w) == 0)

/-- Filter condition of `clickedInLearning` (src/app.js lines 55-57):
`(clickCount[w] || 0) > 0 && (storyUsage[w] - (lastClickUsage[w] || 0)) < REVIEW_THRESHOLD`. -/
def isClickedInLearning {α : Type} (st : Stats α) (w : α) : Bool :=
  decide (0 < orZero (st.clickCount w)) &&
  jsSubLt (st.storyUsage w) (orZero (st.lastClickUsage w)) REVIEW_THRESHOLD

/-- Filter condition of `masteredByRepetition` (src/app.js lines 58-60):
`(storyUsage[w] || 0) >= MASTER_THRESHOLD && (clickCount[w] || 0) === 0`. -/
def isMasteredByRepetition {α : Type} (st : Stats α) (w : α) : Bool :=
  decide (MASTER_THRESHOLD ≤ orZero (st.storyUsage w)) &&
  (orZero (st.clickCount w) == 0)

/-- Filter condition of `masteredByReview` (src/app.js lines 61-63):
`(clickCount[w] || 0) > 0 && (storyUsage[w] - (lastClickUsage[w] || 0)) >= REVIEW_THRESHOLD`. -/
def isMasteredByReview {α : Type} (st : Stats α) (w : α) : Bool :=
  decide (0 < orZero (st.clickCount w)) &&
  jsSubGe (st.storyUsage w) (orZero (st.lastClickUsage w)) REVIEW_THRESHOLD

/-- Number of the five tier filters that accept the word `w`. -/
def tierCount {α : Type} (st : Stats α) (w : α) : Nat :=
  (if isUnseen st w then 1 else 0) +
  (if isSeenUnclicked st w then 1 else 0) +
  (if isClickedInLearning st w then 1 else 0) +
  (if isMasteredByRepetition st w then 1 else 0) +
  (if isMasteredByReview st w then 1 else 0)

/-- Loop of `pickRandom` (src/app.js lines 31-34): while fewer than the
requested number have been picked and the copy is nonempty, splice out the
element at a random valid index and append it to the picked list.  The third
argument is the number of picks still to make; `k` numbers the loop iterations
for the random source. -/
def pickRandomAux {α : Type} (rand : Nat → Nat) : Nat → List α → Nat → List α
  | _, _, 0 => []
  | _, [], _ + 1 => []
  | k, x :: xs, r + 1 =>
    (x :: xs).getD (rand k % (x :: xs).length) x ::
      pickRandomAux rand (k + 1) ((x :: xs).eraseIdx (rand k % (x :: xs).length)) r

/-- src/app.js lines 28-36: randomly picks up to `n` elements of `arr`
without repeats. -/
def pickRandom {α : Type} (rand : Nat → Nat) (arr : List α) (n : Nat) : List α :=
  pickRandomAux rand 0 arr n

/-- The source binding `unseen` (src/app.js line 51). -/
def unseenOf {α : Type} (st : Stats α) (allWords : List α) : List α :=
  allWords.filter (fun w => isUnseen st w)

/-- The source binding `seenUnclicked` (src/app.js lines 52-54). -/
def seenUnclickedOf {α : Type} (st : Stats α) (allWords : List α) : List α :=
  allWords.filter (fun w => isSeenUnclicked st w)

/-- The source binding `clickedInLearning` (src/app.js lines 55-57), before the in-place sort. -/
def clickedInLearningOf {α : Type} (st : Stats α) (allWords : List α) : List α :=
  allWords.filter (fun w => isClickedInLearning st w)

/-- The source binding `masteredByRepetition` (src/app.js lines 58-60). -/
def masteredByRepetitionOf {α : Type} (st : Stats α) (allWords : List α) : List α :=
  allWords.filter (fun w => isMasteredByRepetition st w)

/-- The source binding `masteredByReview` (src/app.js lines 61-63). -/
def masteredByReviewOf {α : Type} (st : Stats α) (allWords : List α) : List α :=
  allWords.filter (fun w => isMasteredByReview st w)

/-- The source binding `available` (src/app.js lines 69-71); computed by the source but never
used afterwards.  `includes` is membership. -/
def availableOf {α : Type} [DecidableEq α] (st : Stats α) (allWords : List α) : List α :=
  allWords.filter (fun w =>
    !decide (w ∈ masteredByRepetitionOf st allWords) &&
    !decide (w ∈ masteredByReviewOf st allWords))

/-- The source binding `batchNew` (src/app.js line 74): up to NEW_BATCH_SIZE random unseen words. -/
def batchNewOf {α : Type} (rand : Nat → Nat → Nat) (st : Stats α) (allWords : List α) : List α :=
  pickRandom (rand 0) (unseenOf st allWords)
    (min (unseenOf st allWords).length NEW_BATCH_SIZE)

/-- The sort order of src/app.js lines 77-79: ascending by
`clickCount[w] || 0` (the comparator returns the difference of the two
defaulted click counts). -/
def clickLe {α : Type} (st : Stats α) (a b : α) : Prop :=
  orZero (st.clickCount a) ≤ orZero (st.clickCount b)

instance {α : Type} (st : Stats α) : DecidableRel (clickLe st) :=
  fun _ _ => Nat.decLe _ _

/-- The source binding `sortedClicked` (src/app.js lines 77-79).  `Array.prototype.sort` sorts the
`clickedInLearning` array in place (so later uses of that array see the sorted
order); it is a stable sort, and a stable sort for a total preorder comparator
is extensionally unique, so it is modelled by a stable insertion sort. -/
def sortedClickedOf {α : Type} (st : Stats α) (allWords : List α) : List α :=
  (clickedInLearningOf st allWords).insertionSort (clickLe st)

/-- The source binding `third` (src/app.js line 80): `Math.ceil(sortedClicked.length / 3)`. -/
def thirdOf {α : Type} (st : Stats α) (allWords : List α) : Nat :=
  ((sortedClickedOf st allWords).length + 2) / 3

/-- The source binding `hard` (src/app.js line 81): `sortedClicked.slice(0, third)`. -/
def hardOf {α : Type} (st : Stats α) (allWords : List α) : List α :=
  (sortedClickedOf st allWords).take (thirdOf st allWords)

/-- The source binding `medium` (src/app.js line 82): `sortedClicked.slice(third, 2 * third)`. -/
def mediumOf {α : Type} (st : Stats α) (allWords : List α) : List α :=
  ((sortedClickedOf st allWords).drop (thirdOf st allWords)).take (thirdOf st allWords)

/-- The source binding `easy` (src/app.js line 83): `sortedClicked.slice(2 * third)`. -/
def easyOf {α : Type} (st : Stats α) (allWords : List α) : List α :=
  (sortedClickedOf st allWords).drop (2 * thirdOf st allWords)

/-- The source binding `hardPick` (src/app.js line 86). -/
def hardPickOf {α : Type} (rand : Nat → Nat → Nat) (st : Stats α) (allWords : List α) : List α :=
  pickRandom (rand 1) (hardOf st allWords) (min (hardOf st allWords).length 20)

/-- The source binding `mediumPick` (src/app.js line 87). -/
def mediumPickOf {α : Type} (rand : Nat → Nat → Nat) (st : Stats α) (allWords : List α) : List α :=
  pickRandom (rand 2) (mediumOf st allWords) (min (mediumOf st allWords).length 20)

/-- The source binding `easyPick` (src/app.js line 88). -/
def easyPickOf {α : Type} (rand : Nat → Nat → Nat) (st : Stats α) (allWords : List α) : List α :=
  pickRandom (rand 3) (easyOf st allWords) (min (easyOf st allWords).length 10)

/-- The source binding `selectedWords` before backfill (src/app.js line 91):
`[...batchNew, ...hardPick, ...mediumPick, ...easyPick]`. -/
def primarySelectedOf {α : Type} (rand : Nat → Nat → Nat) (st : Stats α) (allWords : List α) :
    List α :=
  batchNewOf rand st allWords ++ hardPickOf rand st allWords ++
    mediumPickOf rand st allWords ++ easyPickOf rand st allWords

/-- The source binding `fallbackPool` (src/app.js lines 99-103).  `includes` is membership;
after the in-place sort of line 77, the `clickedInLearning` array holds the
sorted order, so its filtered remainder is taken from `sortedClickedOf`. -/
def fallbackPoolOf {α : Type} [DecidableEq α] (rand : Nat → Nat → Nat) (st : Stats α)
    (allWords : List α) : List α :=
  ((unseenOf st allWords).filter
      (fun w => !decide (w ∈ primarySelectedOf rand st allWords))) ++
  ((seenUnclickedOf st allWords).filter
      (fun w => !decide (w ∈ primarySelectedOf rand st allWords))) ++
  ((sortedClickedOf st allWords).filter
      (fun w => !decide (w ∈ primarySelectedOf rand st allWords)))

/-- src/app.js lines 49-114: the spaced-repetition selector.  Takes the word
universe and the three stat maps; the explicit `rand` argument supplies the
outcome of each `Math.random()` draw (call sites 0-4 = new, hard, medium,
easy, backfill). -/
def selectSpacedRepetitionWords {α : Type} [DecidableEq α] (rand : Nat → Nat → Nat)
    (allWords : List α) (st : Stats α) : List α :=
  if (primarySelectedOf rand st allWords).length < 100 then
    primarySelectedOf rand st allWords ++
      pickRandom (rand 4) (fallbackPoolOf rand st allWords)
        (min (fallbackPoolOf rand st allWords).length
          (100 - (primarySelectedOf rand st allWords).length))
  else
    primarySelectedOf rand st allWords

/-- Outcome of one click of the fetchWords button, as observed by the user
(src/app.js lines 202-245): either the insufficient-corpus alert of lines
221-223 (carrying the universe size it reports) or a generated batch. -/
inductive FetchOutcome (α : Type) where
  | insufficientCorpus : Nat → FetchOutcome α
  | storyGenerated : List α → FetchOutcome α
deriving DecidableEq

/-- The `updateDoc` of src/app.js lines 229-233: one atomic `increment(1)` of
`storyUsage[w]` per distinct selected word (duplicate field paths in the
accumulated update object collapse). -/
def incrementUsage {α : Type} [DecidableEq α] (st : Stats α) (selected : List α) : Stats α :=
  { st with
    storyUsage := fun x =>
      if x ∈ selected then some (orZero (st.storyUsage x) + 1) else st.storyUsage x }

/-- src/app.js lines 202-245, fetchWords click handler, after the word bank and
stats documents have been loaded: `allWords` is the normalized word list,
`statsDoc` the `wordStats` document (`none` when it does not exist; its fields
default to empty maps).  Returns the stats document after the handler together
with the user-visible outcome.  Lines 221-223 guard on
`allWords.length < NEW_BATCH_SIZE + MIX_SIZE` and return before the selector
runs and before any write. -/
def fetchWordsClick {α : Type} [DecidableEq α] (rand : Nat → Nat → Nat) (allWords : List α)
    (statsDoc : Option (Stats α)) : Option (Stats α) × FetchOutcome α :=
  if allWords.length < NEW_BATCH_SIZE + MIX_SIZE then
    (statsDoc, FetchOutcome.insufficientCorpus allWords.length)
  else
    let selected := selectSpacedRepetitionWords rand allWords (statsDoc.getD emptyStats)
    match statsDoc with
    | some st0 => (some (incrementUsage st0 selected), FetchOutcome.storyGenerated selected)
    | none =>
        (some ⟨fun x => if x ∈ selected then some 1 else none, fun _ => none, fun _ => none⟩,
          FetchOutcome.storyGenerated selected)

/-- JS `String.prototype.trim` on a character list: remove leading and
trailing characters of the whitespace class `isWS`. -/
def jsTrim (isWS : Char → Bool) (l : List Char) : List Char :=
  ((l.dropWhile isWS).reverse.dropWhile isWS).reverse

/-- src/app.js lines 280-282: `word.replace(/[\p{P}\p{S}]+/gu, "").trim()`.
Replacing every maximal run of characters of a class by the empty string
removes exactly the characters of that class, so the regex replacement is the
filter keeping characters outside the class.  The Unicode punctuation-plus-
symbol class and the trim whitespace class are abstract parameters `isPS` and
`isWS` (their Unicode tables are data, not logic). -/
def sanitizeWord (isPS isWS : Char → Bool) (word : String) : String :=
  ⟨jsTrim isWS (word.data.filter (fun c => !isPS c))⟩

/-- Point update of a JS object field: `{[k]: v}` merged over `m`. -/
def setKey (m : String → Option Nat) (k : String) (v : Nat) : String → Option Nat :=
  fun x => if x = k then some v else m x

/-- src/app.js lines 323-351: the click recorder.  `statsDoc` is the
`wordStats` document (`none` if absent).  The handler sanitizes, returns at
once if nothing remains, and otherwise updates the document: `updateDoc`
succeeds when the document exists (atomic `increment(1)` of the click count,
overwrite of `lastClickUsage` with the current `storyUsage[word] || 0`); when
it does not exist the not-found branch creates the document with only the
clicked word populated. -/
def handleWordClick (isPS isWS : Char → Bool) (statsDoc : Option (Stats String))
    (rawWord : String) : Option (Stats String) :=
  let word := sanitizeWord isPS isWS rawWord
  if word = "" then statsDoc
  else
    match statsDoc with
    | some stats =>
        some { stats with
          clickCount := setKey stats.clickCount word (orZero (stats.clickCount word) + 1),
          lastClickUsage := setKey stats.lastClickUsage word (orZero (stats.storyUsage word)) }
    | none =>
        some ⟨fun _ => none, setKey (fun _ => none) word 1, setKey (fun _ => none) word 0⟩

/-! ### Lemmas about `pickRandom` -/

theorem nodup_of_subperm {α : Type} {l₁ l₂ : List α} (h : List.Subperm l₁ l₂) (hn : l₂.Nodup) :
    l₁.Nodup := by
  obtain ⟨l, hp, hs⟩ := h
  exact hp.nodup_iff.mp (hs.nodup hn)

/-- Removing the element at a valid index and putting it back in front is a
permutation. -/
theorem getD_cons_eraseIdx_perm {α : Type} (l : List α) (i : Nat) (d : α)
    (h : i < l.length) : List.Perm (l.getD i d :: l.eraseIdx i) l := by
  induction l generalizing i with
  | nil => simp at h
  | cons x xs ih =>
    cases i with
    | zero => simp
    | succ n =>
      have hn : n < xs.length := by simpa using h
      have h1 : (x :: xs).getD (n + 1) d :: (x :: xs).eraseIdx (n + 1)
          = xs.getD n d :: x :: xs.eraseIdx n := by simp
      rw [h1]
      exact (List.Perm.swap x (xs.getD n d) _).trans ((ih n hn).cons x)

/-- The picking loop draws without replacement: its result is a permutation of
a sublist of the copy it starts from. -/
theorem pickRandomAux_subperm {α : Type} (rand : Nat → Nat) :
    ∀ (r k : Nat) (copy : List α), List.Subperm (pickRandomAux rand k copy r) copy := by
  intro r
  induction r with
  | zero => intro k copy; simp [pickRandomAux]
  | succ n ih =>
    intro k copy
    match copy with
    | [] => simp [pickRandomAux]
    | x :: xs =>
      rw [pickRandomAux]
      have hlt : rand k % (x :: xs).length < (x :: xs).length := Nat.mod_lt _ (by simp)
      have h3 : List.Subperm
          ((x :: xs).getD (rand k % (x :: xs).length) x ::
            pickRandomAux rand (k + 1) ((x :: xs).eraseIdx (rand k % (x :: xs).length)) n)
          ((x :: xs).getD (rand k % (x :: xs).length) x ::
            (x :: xs).eraseIdx (rand k % (x :: xs).length)) :=
        (List.subperm_cons _).mpr (ih (k + 1) _)
      exact h3.trans (getD_cons_eraseIdx_perm (x :: xs) _ x hlt).subperm

/-- The picking loop returns exactly `min r copy.length` elements. -/
theorem pickRandomAux_length {α : Type} (rand : Nat → Nat) :
    ∀ (r k : Nat) (copy : List α),
      (pickRandomAux rand k copy r).length = min r copy.length := by
  intro r
  induction r with
  | zero => intro k copy; simp [pickRandomAux]
  | succ n ih =>
    intro k copy
    match copy with
    | [] => simp [pickRandomAux]
    | x :: xs =>
      rw [pickRandomAux]
      have hlt : rand k % (x :: xs).length < (x :: xs).length := Nat.mod_lt _ (by simp)
      simp only [List.length_cons, ih, List.length_eraseIdx]
      simp only [List.length_cons] at hlt
      rw [if_pos hlt]
      omega

theorem pickRandom_subperm {α : Type} (rand : Nat → Nat) (arr : List α) (n : Nat) :
    List.Subperm (pickRandom rand arr n) arr :=
  pickRandomAux_subperm rand n 0 arr

theorem pickRandom_subset {α : Type} (rand : Nat → Nat) (arr : List α) (n : Nat) :
    pickRandom rand arr n ⊆ arr :=
  (pickRandom_subperm rand arr n).subset

theorem pickRandom_length {α : Type} (rand : Nat → Nat) (arr : List α) (n : Nat) :
    (pickRandom rand arr n).length = min n arr.length :=
  pickRandomAux_length rand n 0 arr

theorem pickRandom_nodup {α : Type} (rand : Nat → Nat) {arr : List α} (n : Nat)
    (h : arr.Nodup) : (pickRandom rand arr n).Nodup :=
  nodup_of_subperm (pickRandom_subperm rand arr n) h

/-! ### Arithmetic facts about the five tier filters -/

/-- Every word is accepted by at least one of the five tier filters. -/
theorem tier_total {α : Type} (st : Stats α) (w : α) :
    isUnseen st w = true ∨ isSeenUnclicked st w = true ∨ isClickedInLearning st w = true ∨
      isMasteredByRepetition st w = true ∨ isMasteredByReview st w = true := by
  rcases hs : st.storyUsage w with _ | s <;> rcases hc : st.clickCount w with _ | c <;>
    simp only [isUnseen, isSeenUnclicked, isClickedInLearning, isMasteredByRepetition,
      isMasteredByReview, jsLt, jsSubLt, jsSubGe, orZero, hs, hc, Option.getD_some,
      Option.getD_none, MASTER_THRESHOLD, REVIEW_THRESHOLD, Bool.and_eq_true,
      decide_eq_true_eq, beq_iff_eq, reduceCtorEq, lt_self_iff_false, true_and, and_true,
      false_and, and_false, true_or, or_true, false_or, or_false] <;> omega

/-- The Unseen and ClickedInLearning filters overlap exactly on words with an
explicit `storyUsage` entry equal to 0 and a positive click count. -/
theorem unseen_and_clicked_iff {α : Type} (st : Stats α) (w : α) :
    (isUnseen st w = true ∧ isClickedInLearning st w = true) ↔
      (st.storyUsage w = some 0 ∧ 0 < orZero (st.clickCount w)) := by
  rcases hs : st.storyUsage w with _ | s <;> rcases hc : st.clickCount w with _ | c <;>
    simp only [isUnseen, isClickedInLearning, jsSubLt, orZero, hs, hc, Option.getD_some,
      Option.getD_none, REVIEW_THRESHOLD, Bool.and_eq_true, decide_eq_true_eq, beq_iff_eq,
      Option.some_inj, reduceCtorEq, lt_self_iff_false, true_and, and_true, false_and,
      and_false, true_or, or_true, false_or, or_false, false_iff, iff_false, not_and,
      not_false_eq_true] <;> omega

/-- A word accepted by the MasteredByRepetition filter is rejected by the
three tiers the selector draws from. -/
theorem masteredByRepetition_excluded {α : Type} (st : Stats α) (w : α)
    (h : isMasteredByRepetition st w = true) :
    isUnseen st w = false ∧ isSeenUnclicked st w = false ∧
      isClickedInLearning st w = false := by
  revert h
  rcases hs : st.storyUsage w with _ | s <;> rcases hc : st.clickCount w with _ | c <;>
    simp only [isUnseen, isSeenUnclicked, isClickedInLearning, isMasteredByRepetition,
      jsLt, jsSubLt, orZero, hs, hc, Option.getD_some, Option.getD_none, MASTER_THRESHOLD,
      REVIEW_THRESHOLD, Bool.and_eq_true, Bool.and_eq_false_iff, decide_eq_true_eq,
      decide_eq_false_iff_not, beq_iff_eq, beq_eq_false_iff_ne, reduceCtorEq,
      lt_self_iff_false, true_and, and_true, false_and, and_false, true_or, or_true,
      false_or, or_false, not_false_eq_true, false_implies, implies_true] <;> omega

/-- A word accepted by the MasteredByReview filter is rejected by the three
tiers the selector draws from. -/
theorem masteredByReview_excluded {α : Type} (st : Stats α) (w : α)
    (h : isMasteredByReview st w = true) :
    isUnseen st w = false ∧ isSeenUnclicked st w = false ∧
      isClickedInLearning st w = false := by
  revert h
  rcases hs : st.storyUsage w with _ | s <;> rcases hc : st.clickCount w with _ | c <;>
    simp only [isUnseen, isSeenUnclicked, isClickedInLearning, isMasteredByReview,
      jsLt, jsSubLt, jsSubGe, orZero, hs, hc, Option.getD_some, Option.getD_none,
      MASTER_THRESHOLD, REVIEW_THRESHOLD, Bool.and_eq_true, Bool.and_eq_false_iff,
      decide_eq_true_eq, decide_eq_false_iff_not, beq_iff_eq, beq_eq_false_iff_ne,
      reduceCtorEq, lt_self_iff_false, true_and, and_true, false_and, and_false, true_or,
      or_true, false_or, or_false, not_false_eq_true, false_implies, implies_true] <;>
    omega

/-- The Unseen and SeenUnclicked filters never both accept a word. -/
theorem not_unseen_and_seenUnclicked {α : Type} (st : Stats α) (w : α) :
    ¬(isUnseen st w = true ∧ isSeenUnclicked st w = true) := by
  rcases hs : st.storyUsage w with _ | s <;> rcases hc : st.clickCount w with _ | c <;>
    simp only [isUnseen, isSeenUnclicked, jsLt, orZero, hs, hc, Option.getD_some,
      Option.getD_none, MASTER_THRESHOLD, Bool.and_eq_true, decide_eq_true_eq,
      beq_iff_eq, reduceCtorEq, lt_self_iff_false, true_and, and_true, false_and,
      and_false, not_and, not_false_eq_true, false_implies, implies_true] <;> omega

/-- The SeenUnclicked and ClickedInLearning filters never both accept a word. -/
theorem not_seenUnclicked_and_clicked {α : Type} (st : Stats α) (w : α) :
    ¬(isSeenUnclicked st w = true ∧ isClickedInLearning st w = true) := by
  rcases hs : st.storyUsage w with _ | s <;> rcases hc : st.clickCount w with _ | c <;>
    simp only [isSeenUnclicked, isClickedInLearning, jsLt, jsSubLt, orZero, hs, hc,
      Option.getD_some, Option.getD_none, MASTER_THRESHOLD, REVIEW_THRESHOLD,
      Bool.and_eq_true, decide_eq_true_eq, beq_iff_eq, reduceCtorEq, lt_self_iff_false,
      true_and, and_true, false_and, and_false, not_and, not_false_eq_true,
      false_implies, implies_true] <;> omega

/-- C1 (amended): every word passes at least one of the five tier filters of
`selectSpacedRepetitionWords`; the filters are pairwise exclusive except that
a word with an explicit `storyUsage` entry equal to 0 and a positive click
count passes exactly two of them (`unseen` and `clickedInLearning`).
Equivalently, the number of accepting filters is 2 in that overlap case and 1
otherwise. -/
theorem tierCount_eq {α : Type} (st : Stats α) (w : α) :
    tierCount st w =
      if st.storyUsage w = some 0 ∧ 0 < orZero (st.clickCount w) then 2 else 1 := by
  unfold tierCount
  rcases hs : st.storyUsage w with _ | s <;> rcases hc : st.clickCount w with _ | c <;>
    simp only [isUnseen, isSeenUnclicked, isClickedInLearning, isMasteredByRepetition,
      isMasteredByReview, jsLt, jsSubLt, jsSubGe, orZero, hs, hc, Option.getD_some,
      Option.getD_none, MASTER_THRESHOLD, REVIEW_THRESHOLD, Bool.and_eq_true,
      decide_eq_true_eq, beq_iff_eq, Option.some_inj, reduceCtorEq, lt_self_iff_false,
      true_and, and_true, false_and, and_false, true_or, or_true, false_or, or_false,
      if_false, if_true, decide_eq_true_iff] <;> split_ifs <;> omega

/-! ### Membership decomposition of the selector -/

theorem mem_unseenOf {α : Type} {st : Stats α} {ws : List α} {w : α} :
    w ∈ unseenOf st ws ↔ w ∈ ws ∧ isUnseen st w = true := by
  simp [unseenOf, List.mem_filter]

theorem mem_seenUnclickedOf {α : Type} {st : Stats α} {ws : List α} {w : α} :
    w ∈ seenUnclickedOf st ws ↔ w ∈ ws ∧ isSeenUnclicked st w = true := by
  simp [seenUnclickedOf, List.mem_filter]

theorem mem_clickedInLearningOf {α : Type} {st : Stats α} {ws : List α} {w : α} :
    w ∈ clickedInLearningOf st ws ↔ w ∈ ws ∧ isClickedInLearning st w = true := by
  simp [clickedInLearningOf, List.mem_filter]

theorem sortedClickedOf_perm {α : Type} (st : Stats α) (ws : List α) :
    List.Perm (sortedClickedOf st ws) (clickedInLearningOf st ws) :=
  List.perm_insertionSort (clickLe st) _

theorem mem_sortedClickedOf {α : Type} {st : Stats α} {ws : List α} {w : α} :
    w ∈ sortedClickedOf st ws ↔ w ∈ clickedInLearningOf st ws :=
  (sortedClickedOf_perm st ws).mem_iff

theorem hardOf_subset {α : Type} (st : Stats α) (ws : List α) :
    hardOf st ws ⊆ sortedClickedOf st ws :=
  (List.take_sublist _ _).subset

theorem mediumOf_subset {α : Type} (st : Stats α) (ws : List α) :
    mediumOf st ws ⊆ sortedClickedOf st ws :=
  ((List.take_sublist _ _).trans (List.drop_sublist _ _)).subset

theorem easyOf_subset {α : Type} (st : Stats α) (ws : List α) :
    easyOf st ws ⊆ sortedClickedOf st ws :=
  (List.drop_sublist _ _).subset

/-- Every primary pick is an unseen word or a clicked-in-learning word. -/
theorem mem_primarySelectedOf {α : Type} (rand : Nat → Nat → Nat) (st : Stats α)
    (ws : List α) (w : α) (h : w ∈ primarySelectedOf rand st ws) :
    w ∈ unseenOf st ws ∨ w ∈ clickedInLearningOf st ws := by
  simp only [primarySelectedOf, List.mem_append] at h
  rcases h with ((h | h) | h) | h
  · exact Or.inl (pickRandom_subset _ _ _ h)
  · exact Or.inr (mem_sortedClickedOf.mp
      (hardOf_subset st ws (pickRandom_subset _ _ _ h)))
  · exact Or.inr (mem_sortedClickedOf.mp
      (mediumOf_subset st ws (pickRandom_subset _ _ _ h)))
  · exact Or.inr (mem_sortedClickedOf.mp
      (easyOf_subset st ws (pickRandom_subset _ _ _ h)))

/-- Every fallback-pool element comes from one of the three unmastered tiers
and is not already among the primary picks. -/
theorem mem_fallbackPoolOf {α : Type} [DecidableEq α] {rand : Nat → Nat → Nat} {st : Stats α}
    {ws : List α} {w : α} (h : w ∈ fallbackPoolOf rand st ws) :
    (w ∈ unseenOf st ws ∨ w ∈ seenUnclickedOf st ws ∨ w ∈ clickedInLearningOf st ws) ∧
      w ∉ primarySelectedOf rand st ws := by
  simp only [fallbackPoolOf, List.mem_append, List.mem_filter, Bool.not_eq_eq_eq_not,
    Bool.not_true, decide_eq_false_iff_not] at h
  rcases h with (⟨h1, h2⟩ | ⟨h1, h2⟩) | ⟨h1, h2⟩
  · exact ⟨Or.inl h1, h2⟩
  · exact ⟨Or.inr (Or.inl h1), h2⟩
  · exact ⟨Or.inr (Or.inr (mem_sortedClickedOf.mp h1)), h2⟩

/-- Every selected word is a word of the universe lying in one of the three
tiers the selector draws from. -/
theorem mem_select {α : Type} [DecidableEq α] {rand : Nat → Nat → Nat} {ws : List α}
    {st : Stats α} {w : α} (h : w ∈ selectSpacedRepetitionWords rand ws st) :
    w ∈ ws ∧ (isUnseen st w = true ∨ isSeenUnclicked st w = true ∨
      isClickedInLearning st w = true) := by
  have hmem : w ∈ unseenOf st ws ∨ w ∈ seenUnclickedOf st ws ∨
      w ∈ clickedInLearningOf st ws := by
    unfold selectSpacedRepetitionWords at h
    split at h
    · rcases List.mem_append.mp h with h | h
      · rcases mem_primarySelectedOf rand st ws w h with h | h
        · exact Or.inl h
        · exact Or.inr (Or.inr h)
      · exact (mem_fallbackPoolOf (pickRandom_subset _ _ _ h)).1
    · rcases mem_primarySelectedOf rand st ws w h with h | h
      · exact Or.inl h
      · exact Or.inr (Or.inr h)
  rcases hmem with h | h | h
  · exact ⟨(mem_unseenOf.mp h).1, Or.inl (mem_unseenOf.mp h).2⟩
  · exact ⟨(mem_seenUnclickedOf.mp h).1, Or.inr (Or.inl (mem_seenUnclickedOf.mp h).2)⟩
  · exact ⟨(mem_clickedInLearningOf.mp h).1,
      Or.inr (Or.inr (mem_clickedInLearningOf.mp h).2)⟩

/-- C9: every word returned by `selectSpacedRepetitionWords` is an element of
the input universe `allWords`; the selector never invents words. -/
theorem select_subset_universe {α : Type} [DecidableEq α] (rand : Nat → Nat → Nat)
    (allWords : List α) (st : Stats α) (w : α)
    (h : w ∈ selectSpacedRepetitionWords rand allWords st) : w ∈ allWords :=
  (mem_select h).1

/-- C9 witness at a concrete input. -/
theorem select_subset_universe_witness :
    (0 : Nat) ∈ selectSpacedRepetitionWords (fun _ _ => 0) [0, 1, 2] emptyStats ∧
      (0 : Nat) ∈ [0, 1, 2] :=
  ⟨by decide, select_subset_universe (fun _ _ => 0) [0, 1, 2] emptyStats 0 (by decide)⟩

/-- C3: no word that the MasteredByRepetition filter or the MasteredByReview
filter accepts at call time appears in the selector output. -/
theorem select_excludes_mastered {α : Type} [DecidableEq α] (rand : Nat → Nat → Nat)
    (allWords : List α) (st : Stats α) (w : α)
    (h : isMasteredByRepetition st w = true ∨ isMasteredByReview st w = true) :
    w ∉ selectSpacedRepetitionWords rand allWords st := by
  intro hmem
  rcases mem_select hmem with ⟨-, htier⟩
  rcases h with h | h
  · rcases masteredByRepetition_excluded st w h with ⟨h1, h2, h3⟩
    rcases htier with ht | ht | ht <;> simp_all
  · rcases masteredByReview_excluded st w h with ⟨h1, h2, h3⟩
    rcases htier with ht | ht | ht <;> simp_all

/-! ### Disjointness and duplicate-freeness of the selector output -/

theorem disjoint_mono {α : Type} {l₁ l₂ m₁ m₂ : List α} (h : l₁.Disjoint l₂)
    (s1 : m₁ ⊆ l₁) (s2 : m₂ ⊆ l₂) : m₁.Disjoint m₂ :=
  fun _ ha hb => h (s1 ha) (s2 hb)

theorem disjoint_append_left_of {α : Type} {l₁ l₂ m : List α} (h1 : l₁.Disjoint m)
    (h2 : l₂.Disjoint m) : (l₁ ++ l₂).Disjoint m :=
  fun _ ha hm => (List.mem_append.mp ha).elim (fun h => h1 h hm) (fun h => h2 h hm)

theorem unseen_disjoint_seenUnclicked {α : Type} (st : Stats α) (ws : List α) :
    (unseenOf st ws).Disjoint (seenUnclickedOf st ws) :=
  fun a ha hb => not_unseen_and_seenUnclicked st a
    ⟨(mem_unseenOf.mp ha).2, (mem_seenUnclickedOf.mp hb).2⟩

theorem seenUnclicked_disjoint_clicked {α : Type} (st : Stats α) (ws : List α) :
    (seenUnclickedOf st ws).Disjoint (clickedInLearningOf st ws) :=
  fun a ha hb => not_seenUnclicked_and_clicked st a
    ⟨(mem_seenUnclickedOf.mp ha).2, (mem_clickedInLearningOf.mp hb).2⟩

/-- Unless some word of the universe carries an explicit zero `storyUsage`
entry together with a positive click count, the unseen and clicked-in-learning
pools are disjoint. -/
theorem unseen_disjoint_clicked {α : Type} {st : Stats α} {ws : List α}
    (H : ∀ w ∈ ws, ¬(st.storyUsage w = some 0 ∧ 0 < orZero (st.clickCount w))) :
    (unseenOf st ws).Disjoint (clickedInLearningOf st ws) :=
  fun a ha hb => H a (mem_unseenOf.mp ha).1 ((unseen_and_clicked_iff st a).mp
    ⟨(mem_unseenOf.mp ha).2, (mem_clickedInLearningOf.mp hb).2⟩)

/-- The three positional bands reassemble the sorted list. -/
theorem bands_decomposition {α : Type} (st : Stats α) (ws : List α) :
    hardOf st ws ++ mediumOf st ws ++ easyOf st ws = sortedClickedOf st ws := by
  unfold hardOf mediumOf easyOf
  rw [List.append_assoc]
  have h1 : (2 : Nat) * thirdOf st ws = thirdOf st ws + thirdOf st ws := by ring
  rw [h1, ← List.drop_drop, List.take_append_drop, List.take_append_drop]

theorem sortedClickedOf_nodup {α : Type} {st : Stats α} {ws : List α} (hN : ws.Nodup) :
    (sortedClickedOf st ws).Nodup :=
  (sortedClickedOf_perm st ws).nodup_iff.mpr (hN.filter _)

/-- The primary picks contain no duplicate, provided no word of the universe
has an explicit zero `storyUsage` entry together with a positive click count. -/
theorem primarySelectedOf_nodup {α : Type} [DecidableEq α] (rand : Nat → Nat → Nat)
    {st : Stats α} {ws : List α} (hN : ws.Nodup)
    (H : ∀ w ∈ ws, ¬(st.storyUsage w = some 0 ∧ 0 < orZero (st.clickCount w))) :
    (primarySelectedOf rand st ws).Nodup := by
  have hSorted : (sortedClickedOf st ws).Nodup := sortedClickedOf_nodup hN
  have hBands : (hardOf st ws ++ mediumOf st ws ++ easyOf st ws).Nodup := by
    rw [bands_decomposition]; exact hSorted
  have hHM := List.nodup_append.mp (List.nodup_append.mp hBands).1
  have hHardN : (hardOf st ws).Nodup := hHM.1
  have hMedN : (mediumOf st ws).Nodup := hHM.2.1
  have hEasyN : (easyOf st ws).Nodup := (List.nodup_append.mp hBands).2.1
  have dHM : (hardOf st ws).Disjoint (mediumOf st ws) := hHM.2.2
  have dHME : (hardOf st ws ++ mediumOf st ws).Disjoint (easyOf st ws) :=
    (List.nodup_append.mp hBands).2.2
  have dHE : (hardOf st ws).Disjoint (easyOf st ws) :=
    disjoint_mono dHME (List.subset_append_left _ _) (fun _ h => h)
  have dME : (mediumOf st ws).Disjoint (easyOf st ws) :=
    disjoint_mono dHME (List.subset_append_right _ _) (fun _ h => h)
  have hbn : batchNewOf rand st ws ⊆ unseenOf st ws := pickRandom_subset _ _ _
  have hhpBand : hardPickOf rand st ws ⊆ hardOf st ws := pickRandom_subset _ _ _
  have hmpBand : mediumPickOf rand st ws ⊆ mediumOf st ws := pickRandom_subset _ _ _
  have hepBand : easyPickOf rand st ws ⊆ easyOf st ws := pickRandom_subset _ _ _
  have hhp : hardPickOf rand st ws ⊆ clickedInLearningOf st ws :=
    fun a ha => mem_sortedClickedOf.mp (hardOf_subset st ws (hhpBand ha))
  have hmp : mediumPickOf rand st ws ⊆ clickedInLearningOf st ws :=
    fun a ha => mem_sortedClickedOf.mp (mediumOf_subset st ws (hmpBand ha))
  have hep : easyPickOf rand st ws ⊆ clickedInLearningOf st ws :=
    fun a ha => mem_sortedClickedOf.mp (easyOf_subset st ws (hepBand ha))
  have dUC := unseen_disjoint_clicked H
  have hbnN : (batchNewOf rand st ws).Nodup := pickRandom_nodup _ _ (hN.filter _)
  have hhpN : (hardPickOf rand st ws).Nodup := pickRandom_nodup _ _ hHardN
  have hmpN : (mediumPickOf rand st ws).Nodup := pickRandom_nodup _ _ hMedN
  have hepN : (easyPickOf rand st ws).Nodup := pickRandom_nodup _ _ hEasyN
  unfold primarySelectedOf
  refine List.nodup_append.mpr ⟨List.nodup_append.mpr ⟨List.nodup_append.mpr
    ⟨hbnN, hhpN, disjoint_mono dUC hbn hhp⟩, hmpN, ?_⟩, hepN, ?_⟩
  · exact disjoint_append_left_of (disjoint_mono dUC hbn hmp)
      (disjoint_mono dHM hhpBand hmpBand)
  · exact disjoint_append_left_of (disjoint_append_left_of
      (disjoint_mono dUC hbn hep) (disjoint_mono dHE hhpBand hepBand))
      (disjoint_mono dME hmpBand hepBand)

/-- The fallback pool contains no duplicate under the same proviso. -/
theorem fallbackPoolOf_nodup {α : Type} [DecidableEq α] (rand : Nat → Nat → Nat)
    {st : Stats α} {ws : List α} (hN : ws.Nodup)
    (H : ∀ w ∈ ws, ¬(st.storyUsage w = some 0 ∧ 0 < orZero (st.clickCount w))) :
    (fallbackPoolOf rand st ws).Nodup := by
  have hu : ((unseenOf st ws).filter
      (fun w => !decide (w ∈ primarySelectedOf rand st ws))) ⊆ unseenOf st ws :=
    fun a ha => (List.mem_filter.mp ha).1
  have hs : ((seenUnclickedOf st ws).filter
      (fun w => !decide (w ∈ primarySelectedOf rand st ws))) ⊆ seenUnclickedOf st ws :=
    fun a ha => (List.mem_filter.mp ha).1
  have hc : ((sortedClickedOf st ws).filter
      (fun w => !decide (w ∈ primarySelectedOf rand st ws))) ⊆ clickedInLearningOf st ws :=
    fun a ha => mem_sortedClickedOf.mp (List.mem_filter.mp ha).1
  unfold fallbackPoolOf
  refine List.nodup_append.mpr ⟨List.nodup_append.mpr
    ⟨(hN.filter _).filter _, (hN.filter _).filter _,
      disjoint_mono (unseen_disjoint_seenUnclicked st ws) hu hs⟩,
    (sortedClickedOf_nodup hN).filter _, ?_⟩
  exact disjoint_append_left_of
    (disjoint_mono (unseen_disjoint_clicked H) hu hc)
    (disjoint_mono (seenUnclicked_disjoint_clicked st ws) hs hc)

/-- C2 (amended): for a duplicate-free universe in which no word has an
explicit `storyUsage` entry equal to 0 together with a positive click count,
every word appears at most once in the selector output. -/
theorem select_nodup {α : Type} [DecidableEq α] (rand : Nat → Nat → Nat) (allWords : List α)
    (st : Stats α) (hN : allWords.Nodup)
    (H : ∀ w ∈ allWords, ¬(st.storyUsage w = some 0 ∧ 0 < orZero (st.clickCount w))) :
    (selectSpacedRepetitionWords rand allWords st).Nodup := by
  unfold selectSpacedRepetitionWords
  split
  · refine List.nodup_append.mpr ⟨primarySelectedOf_nodup rand hN H,
      pickRandom_nodup _ _ (fallbackPoolOf_nodup rand hN H), ?_⟩
    intro a ha hb
    exact (mem_fallbackPoolOf (pickRandom_subset _ _ _ hb)).2 ha
  · exact primarySelectedOf_nodup rand hN H

/-- C2 witness at a concrete input. -/
theorem select_nodup_witness :
    ([0, 1] : List Nat).Nodup ∧
      (∀ w ∈ ([0, 1] : List Nat),
        ¬((emptyStats : Stats Nat).storyUsage w = some 0 ∧
          0 < orZero ((emptyStats : Stats Nat).clickCount w))) ∧
      (selectSpacedRepetitionWords (fun _ _ => 0) [0, 1] (emptyStats : Stats Nat)).Nodup :=
  ⟨by decide, by decide,
    select_nodup (fun _ _ => 0) [0, 1] emptyStats (by decide) (by decide)⟩

/-- Stats exhibiting the tier overlap: every word carries an explicit
`storyUsage` entry 0 and click count 1 (with no last-click entry). -/
def overlapStats : Stats Nat :=
  ⟨fun _ => some 0, fun _ => some 1, fun _ => none⟩

/-- C1 counterexample: with `storyUsage[0] = 0` stored explicitly and
`clickCount[0] = 1`, word 0 passes both the `unseen` filter and the
`clickedInLearning` filter of `selectSpacedRepetitionWords`, so it falls in
two tiers, not exactly one. -/
theorem tier_overlap_counterexample :
    unseenOf overlapStats [0] = [0] ∧ clickedInLearningOf overlapStats [0] = [0] ∧
      tierCount overlapStats 0 = 2 := by
  decide

/-- C2 counterexample: on the duplicate-free universe `[0]` with the overlap
stats, the selector returns word 0 twice (once as the new-word pick, once as
the hard-band pick). -/
theorem select_duplicate_counterexample :
    ([0] : List Nat).Nodup ∧
      (selectSpacedRepetitionWords (fun _ _ => 0) [0] overlapStats).count 0 = 2 := by
  decide

/-- Stats making every word mastered by repetition: 25 exposures, no clicks. -/
def masteredStats : Stats Nat :=
  ⟨fun _ => some 25, fun _ => none, fun _ => none⟩

/-- C3 witness at a concrete input. -/
theorem select_excludes_mastered_witness :
    (isMasteredByRepetition masteredStats 0 = true ∨
        isMasteredByReview masteredStats 0 = true) ∧
      0 ∉ selectSpacedRepetitionWords (fun _ _ => 0) [0] masteredStats :=
  ⟨Or.inl (by decide),
    select_excludes_mastered (fun _ _ => 0) [0] masteredStats 0 (Or.inl (by decide))⟩

/-! ### Batch size and review-stage structure -/

/-- C4: the selector output never exceeds TARGET_BATCH_SIZE words, and reaches
exactly TARGET_BATCH_SIZE whenever the primary picks together with the
fallback pool hold at least that many words. -/
theorem select_length_bound {α : Type} [DecidableEq α] (rand : Nat → Nat → Nat)
    (allWords : List α) (st : Stats α) :
    (selectSpacedRepetitionWords rand allWords st).length ≤ TARGET_BATCH_SIZE ∧
      (TARGET_BATCH_SIZE ≤ (primarySelectedOf rand st allWords).length +
          (fallbackPoolOf rand st allWords).length →
        (selectSpacedRepetitionWords rand allWords st).length = TARGET_BATCH_SIZE) := by
  have hP : (primarySelectedOf rand st allWords).length ≤ 100 := by
    unfold primarySelectedOf batchNewOf hardPickOf mediumPickOf easyPickOf
    simp only [List.length_append, pickRandom_length, NEW_BATCH_SIZE]
    omega
  unfold selectSpacedRepetitionWords TARGET_BATCH_SIZE
  split
  · constructor
    · simp only [List.length_append, pickRandom_length]
      omega
    · intro hge
      simp only [List.length_append, pickRandom_length]
      omega
  · constructor
    · exact hP
    · intro hge
      omega

/-- C4 witness at a concrete input: 100 fresh words, empty stats. -/
theorem select_length_bound_witness :
    TARGET_BATCH_SIZE ≤
        (primarySelectedOf (fun _ _ => 0) (emptyStats : Stats Nat) (List.range 100)).length +
        (fallbackPoolOf (fun _ _ => 0) (emptyStats : Stats Nat) (List.range 100)).length ∧
      (selectSpacedRepetitionWords (fun _ _ => 0) (List.range 100)
          (emptyStats : Stats Nat)).length = TARGET_BATCH_SIZE :=
  ⟨by decide,
    (select_length_bound (fun _ _ => 0) (List.range 100) emptyStats).2 (by decide)⟩

/-- C5: the review stage sorts the clicked-in-learning words ascending by
click count (a permutation of that pool, pairwise ordered), cuts it into the
positional bands Hard and Medium of size `ceil(n/3)` each (clamped by what
remains) and Easy holding the rest, and draws without replacement at most 20
words from Hard, 20 from Medium and 10 from Easy; the new-word pick is drawn
without replacement from the unseen pool and holds at most NEW_BATCH_SIZE
words. -/
theorem select_review_stage_structure {α : Type} [DecidableEq α] (rand : Nat → Nat → Nat)
    (allWords : List α) (st : Stats α) :
    List.Perm (sortedClickedOf st allWords) (clickedInLearningOf st allWords) ∧
    (sortedClickedOf st allWords).Pairwise (clickLe st) ∧
    (hardOf st allWords).length =
      min (((sortedClickedOf st allWords).length + 2) / 3)
        (sortedClickedOf st allWords).length ∧
    (mediumOf st allWords).length =
      min (((sortedClickedOf st allWords).length + 2) / 3)
        ((sortedClickedOf st allWords).length -
          ((sortedClickedOf st allWords).length + 2) / 3) ∧
    (easyOf st allWords).length =
      (sortedClickedOf st allWords).length -
        2 * (((sortedClickedOf st allWords).length + 2) / 3) ∧
    hardOf st allWords ++ mediumOf st allWords ++ easyOf st allWords =
      sortedClickedOf st allWords ∧
    List.Subperm (hardPickOf rand st allWords) (hardOf st allWords) ∧
    (hardPickOf rand st allWords).length ≤ 20 ∧
    List.Subperm (mediumPickOf rand st allWords) (mediumOf st allWords) ∧
    (mediumPickOf rand st allWords).length ≤ 20 ∧
    List.Subperm (easyPickOf rand st allWords) (easyOf st allWords) ∧
    (easyPickOf rand st allWords).length ≤ 10 ∧
    List.Subperm (batchNewOf rand st allWords) (unseenOf st allWords) ∧
    (batchNewOf rand st allWords).length ≤ NEW_BATCH_SIZE := by
  refine ⟨sortedClickedOf_perm st allWords, ?_, ?_, ?_, ?_,
    bands_decomposition st allWords,
    pickRandom_subperm _ _ _, ?_, pickRandom_subperm _ _ _, ?_,
    pickRandom_subperm _ _ _, ?_, pickRandom_subperm _ _ _, ?_⟩
  · exact @List.sorted_insertionSort _ (clickLe st) _ ⟨fun _ _ => Nat.le_total _ _⟩
      ⟨fun _ _ _ => Nat.le_trans⟩ (clickedInLearningOf st allWords)
  · simp [hardOf, List.length_take, thirdOf]
  · simp [mediumOf, List.length_take, List.length_drop, thirdOf]
  · simp [easyOf, List.length_drop, thirdOf]
  · rw [hardPickOf, pickRandom_length]; omega
  · rw [mediumPickOf, pickRandom_length]; omega
  · rw [easyPickOf, pickRandom_length]; omega
  · rw [batchNewOf, pickRandom_length, NEW_BATCH_SIZE]; omega

/-- C6: one click of the fetchWords button on a universe smaller than
NEW_BATCH_SIZE + MIX_SIZE reports the insufficient-corpus error, leaves the
stats document untouched and produces no batch; on a universe at least that
large the error is not raised and a batch is generated. -/
theorem fetchWords_insufficient_corpus_guard {α : Type} [DecidableEq α]
    (rand : Nat → Nat → Nat) (allWords : List α) (statsDoc : Option (Stats α)) :
    (allWords.length < NEW_BATCH_SIZE + MIX_SIZE →
      fetchWordsClick rand allWords statsDoc =
        (statsDoc, FetchOutcome.insufficientCorpus allWords.length)) ∧
    (NEW_BATCH_SIZE + MIX_SIZE ≤ allWords.length →
      (fetchWordsClick rand allWords statsDoc).2 =
        FetchOutcome.storyGenerated
          (selectSpacedRepetitionWords rand allWords (statsDoc.getD emptyStats))) := by
  constructor
  · intro h
    simp [fetchWordsClick, h]
  · intro h
    have h2 : ¬ allWords.length < NEW_BATCH_SIZE + MIX_SIZE := by omega
    cases statsDoc <;> simp [fetchWordsClick, h2]

/-- C6 witness at concrete inputs: 99 words trip the guard, 100 do not. -/
theorem fetchWords_guard_witness :
    (fetchWordsClick (fun _ _ => 0) (List.range 99) (none : Option (Stats Nat)) =
        (none, FetchOutcome.insufficientCorpus (List.range 99).length)) ∧
      ((fetchWordsClick (fun _ _ => 0) (List.range 100) (none : Option (Stats Nat))).2 =
        FetchOutcome.storyGenerated (selectSpacedRepetitionWords (fun _ _ => 0)
          (List.range 100) ((none : Option (Stats Nat)).getD emptyStats))) :=
  ⟨(fetchWords_insufficient_corpus_guard (fun _ _ => 0) (List.range 99) none).1 (by decide),
   (fetchWords_insufficient_corpus_guard (fun _ _ => 0) (List.range 100) none).2 (by decide)⟩

/-! ### Sanitization and click recording -/

theorem dropWhile_dropWhile {α : Type} (p : α → Bool) (l : List α) :
    (l.dropWhile p).dropWhile p = l.dropWhile p := by
  induction l with
  | nil => simp
  | cons x xs ih =>
    by_cases h : p x
    · simp only [List.dropWhile_cons, if_pos h]
      exact ih
    · simp only [List.dropWhile_cons, if_neg h]

/-- If dropping the leading `p`-run of `B ++ t` removes nothing, it removes
nothing from `B` either. -/
theorem dropWhile_eq_self_of_append {α : Type} {p : α → Bool} {B t : List α}
    (h : (B ++ t).dropWhile p = B ++ t) : B.dropWhile p = B := by
  cases B with
  | nil => simp
  | cons b B1 =>
    rw [List.cons_append] at h
    by_cases hp : p b
    · exfalso
      rw [List.dropWhile_cons, if_pos hp] at h
      have hle := (@List.dropWhile_sublist _ (B1 ++ t) p).length_le
      have hlen := congrArg List.length h
      simp only [List.length_cons] at hlen
      omega
    · rw [List.dropWhile_cons, if_neg hp]

theorem mem_of_mem_dropWhile {α : Type} {p : α → Bool} {l : List α} {c : α}
    (h : c ∈ l.dropWhile p) : c ∈ l :=
  (List.dropWhile_sublist p).subset h

theorem mem_of_mem_jsTrim {isWS : Char → Bool} {l : List Char} {c : Char}
    (h : c ∈ jsTrim isWS l) : c ∈ l := by
  unfold jsTrim at h
  rw [List.mem_reverse] at h
  have h1 := mem_of_mem_dropWhile h
  rw [List.mem_reverse] at h1
  exact mem_of_mem_dropWhile h1

/-- Trimming is idempotent. -/
theorem jsTrim_idem (p : Char → Bool) (l : List Char) :
    jsTrim p (jsTrim p l) = jsTrim p l := by
  have hA_self : (l.dropWhile p).dropWhile p = l.dropWhile p := dropWhile_dropWhile p l
  have hsplit : l.dropWhile p =
      ((l.dropWhile p).reverse.dropWhile p).reverse ++
        ((l.dropWhile p).reverse.takeWhile p).reverse := by
    have h0 : (l.dropWhile p).reverse.takeWhile p ++ (l.dropWhile p).reverse.dropWhile p =
        (l.dropWhile p).reverse := List.takeWhile_append_dropWhile p (l.dropWhile p).reverse
    conv_lhs => rw [← List.reverse_reverse (l.dropWhile p), ← h0]
    rw [List.reverse_append]
  have hBself : (((l.dropWhile p).reverse.dropWhile p).reverse).dropWhile p =
      ((l.dropWhile p).reverse.dropWhile p).reverse :=
    dropWhile_eq_self_of_append (hsplit ▸ hA_self)
  unfold jsTrim
  rw [hBself, List.reverse_reverse, dropWhile_dropWhile]

/-- C10: `sanitizeWord` is idempotent: sanitizing an already sanitized word
changes nothing, for every choice of the punctuation-and-symbol class and of
the trim whitespace class. -/
theorem sanitizeWord_idempotent (isPS isWS : Char → Bool) (s : String) :
    sanitizeWord isPS isWS (sanitizeWord isPS isWS s) = sanitizeWord isPS isWS s := by
  unfold sanitizeWord
  apply congrArg String.mk
  have hdata : (String.mk (jsTrim isWS (s.data.filter (fun c => !isPS c)))).data
      = jsTrim isWS (s.data.filter (fun c => !isPS c)) := rfl
  rw [hdata]
  have hfix : (jsTrim isWS (s.data.filter (fun c => !isPS c))).filter (fun c => !isPS c)
      = jsTrim isWS (s.data.filter (fun c => !isPS c)) := by
    apply List.filter_eq_self.mpr
    intro a ha
    exact (List.mem_filter.mp (mem_of_mem_jsTrim ha)).2
  rw [hfix, jsTrim_idem]

/-- C8: the click recorder first removes every character of the
punctuation-and-symbol class and trims (so the sanitized token holds no
character of the class and only characters of the raw token), and a token
that sanitizes to the empty string makes the click a no-op: the stats
document is returned unchanged. -/
theorem handleWordClick_empty_token_noop (isPS isWS : Char → Bool)
    (statsDoc : Option (Stats String)) (rawWord : String) :
    (∀ c ∈ (sanitizeWord isPS isWS rawWord).data, isPS c = false ∧ c ∈ rawWord.data) ∧
      (sanitizeWord isPS isWS rawWord = "" →
        handleWordClick isPS isWS statsDoc rawWord = statsDoc) := by
  constructor
  · intro c hc
    have hc2 : c ∈ jsTrim isWS (rawWord.data.filter (fun c => !isPS c)) := hc
    have h1 := List.mem_filter.mp (mem_of_mem_jsTrim hc2)
    refine ⟨?_, h1.1⟩
    have h2 := h1.2
    simp only [Bool.not_eq_eq_eq_not, Bool.not_true] at h2
    exact h2
  · intro h
    simp only [handleWordClick, h, if_pos]

/-- C8 witness: a pure-punctuation token is dropped without touching the
stats document. -/
theorem handleWordClick_empty_token_noop_witness :
    sanitizeWord (fun c => c == '.') (fun c => c == ' ') "." = "" ∧
      handleWordClick (fun c => c == '.') (fun c => c == ' ') none "." = none :=
  ⟨by decide,
    (handleWordClick_empty_token_noop (fun c => c == '.') (fun c => c == ' ') none ".").2
      (by decide)⟩

/-- C7: clicking a word `w` in sanitized form (`sanitizeWord` fixes it, and it
is nonempty) increments its click count by exactly one over the defaulted
pre-click value and overwrites its last-click usage with the defaulted
pre-click `storyUsage[w]`; the exposure map is untouched and no other key
changes.  When no stats document exists, the created document has exactly
these two entries for `w` and an empty `storyUsage` map. -/
theorem handleWordClick_click_shape (isPS isWS : Char → Bool)
    (statsDoc : Option (Stats String)) (w : String)
    (hfix : sanitizeWord isPS isWS w = w) (hne : w ≠ "") :
    ∃ st1, handleWordClick isPS isWS statsDoc w = some st1 ∧
      st1.clickCount w = some (orZero ((statsDoc.getD emptyStats).clickCount w) + 1) ∧
      st1.lastClickUsage w = some (orZero ((statsDoc.getD emptyStats).storyUsage w)) ∧
      st1.storyUsage = (statsDoc.getD emptyStats).storyUsage ∧
      (∀ v, v ≠ w → st1.clickCount v = (statsDoc.getD emptyStats).clickCount v ∧
        st1.lastClickUsage v = (statsDoc.getD emptyStats).lastClickUsage v) := by
  cases statsDoc with
  | none =>
    have heq : handleWordClick isPS isWS none w =
        some ⟨fun _ => none, setKey (fun _ => none) w 1, setKey (fun _ => none) w 0⟩ := by
      simp only [handleWordClick, hfix, if_neg hne]
    refine ⟨_, heq, ?_, ?_, rfl, ?_⟩
    · simp [setKey, emptyStats, orZero]
    · simp [setKey, emptyStats, orZero]
    · intro v hv
      simp [setKey, emptyStats, hv]
  | some st0 =>
    have heq : handleWordClick isPS isWS (some st0) w =
        some { st0 with
          clickCount := setKey st0.clickCount w (orZero (st0.clickCount w) + 1),
          lastClickUsage := setKey st0.lastClickUsage w (orZero (st0.storyUsage w)) } := by
      simp only [handleWordClick, hfix, if_neg hne]
    refine ⟨_, heq, ?_, ?_, rfl, ?_⟩
    · simp [setKey]
    · simp [setKey]
    · intro v hv
      simp [setKey, hv]

/-- C7 witness: a click on the sanitized word of one letter with no stats
document creates the document with exactly the two expected entries. -/
theorem handleWordClick_click_shape_witness :
    ∃ st1, handleWordClick (fun _ => false) (fun _ => false) none "a" = some st1 ∧
      st1.clickCount "a" =
        some (orZero (((none : Option (Stats String)).getD emptyStats).clickCount "a") + 1) ∧
      st1.lastClickUsage "a" =
        some (orZero (((none : Option (Stats String)).getD emptyStats).storyUsage "a")) ∧
      st1.storyUsage = ((none : Option (Stats String)).getD emptyStats).storyUsage ∧
      (∀ v, v ≠ "a" →
        st1.clickCount v = ((none : Option (Stats String)).getD emptyStats).clickCount v ∧
        st1.lastClickUsage v =
          ((none : Option (Stats String)).getD emptyStats).lastClickUsage v) :=
  handleWordClick_click_shape (fun _ => false) (fun _ => false) none "a" (by decide) (by decide)

end VocabApp
